import Mathlib

/-!
# A shallow embedding of the VariationalViscosity2D fluid core

This file embeds the simulation core of `fluidsim.cpp` / `fluidsim.h`
(class `FluidSim`) in Lean 4 and proves properties of it.

Modelling conventions:

* `float` arithmetic is idealised as exact rational arithmetic (`ℚ`);
  `0.1f` becomes `1/10`, `1.02f` becomes `51/50`, and so on.
* 2D grids (`Array2f`, `Array2c`) are total functions `ℕ → ℕ → α` together
  with the dimensions stored in the simulation state; the shape of every
  grid array is the dimension pair recorded in `ni`/`nj` as set up by
  `FluidSim::initialize` (u is (ni+1)×nj, v is ni×(nj+1), nodal fields are
  (ni+1)×(nj+1), cell fields are ni×nj).  A C++ loop whose iterations are
  independent becomes a pointwise definition guarded by the loop bounds;
  entries outside the loop bounds keep their previous value, exactly as in
  the C++ arrays.
* The external sparse linear solver (`PCGSolver::solve`) is out of scope in
  the specification; the solution vector it returns is modelled as an
  unconstrained oracle function of the full simulation state (the matrix
  and right-hand side assembled by `solve_pressure`/`solve_viscosity` are
  deterministic functions of that state, so any behaviour of the real
  solver is an instance of the oracle).  Likewise the C math library's
  `sqrt` (used by `mag`/`dist`/`normalize` from `vec.h`, which is not part
  of the repository sources) is an oracle `ℚ → ℚ`.
* The low-level array utilities (`array2_utils.h`: `get_barycentric`,
  `interpolate_value`, `interpolate_gradient`, `lerp`, `bilerp`, `clamp`)
  are not part of the repository sources; they are modelled from the spec
  (§4.1): positions are converted to grid-index space, clamped to the valid
  index range, bilinearly interpolated; the gradient is the finite-difference
  gradient of the bilinear interpolant.
-/

/-- A 2D vector (`Vec2f` from `vec.h`). -/
abbrev Vec2 : Type := ℚ × ℚ

/-- Modelled from the spec: componentwise vector sum (`vec.h`'s `operator+`, a low-level primitive outside the repository sources). -/
def vadd (a b : Vec2) : Vec2 := (a.1 + b.1, a.2 + b.2)

/-- Modelled from the spec: componentwise vector difference (`vec.h`'s `operator-`). -/
def vsub (a b : Vec2) : Vec2 := (a.1 - b.1, a.2 - b.2)

/-- Modelled from the spec: scalar times vector (`vec.h`'s `operator*`). -/
def vscale (c : ℚ) (a : Vec2) : Vec2 := (c * a.1, c * a.2)

/-- Modelled from the spec: dot product (`dot` from `vec.h`). -/
def vdot (a b : Vec2) : ℚ := a.1 * b.1 + a.2 * b.2

/-- A 2D grid of rationals (`Array2f`); dimensions are carried separately. -/
abbrev Grid : Type := ℕ → ℕ → ℚ

/-- A 2D grid of flags (`Array2c`, used as 0/1 validity marks). -/
abbrev BGrid : Type := ℕ → ℕ → Bool

/-- Modelled from the spec: `clamp(a, lower, upper)` from `util.h`:
values below `lower` map to `lower`, above `upper` to `upper`. -/
def clampQ (a lower upper : ℚ) : ℚ :=
  if a < lower then lower else if upper < a then upper else a

/-- Modelled from the spec: linear interpolation `lerp(a, b, f)`. -/
def lerp (a b f : ℚ) : ℚ := (1 - f) * a + f * b

/-- Modelled from the spec: bilinear interpolation of four corner values. -/
def bilerp (v00 v10 v01 v11 fx fy : ℚ) : ℚ :=
  lerp (lerp v00 v10 fx) (lerp v01 v11 fx) fy

/-- Modelled from the spec: `get_barycentric(x, i, f, 0, i_high)` from
`array2_utils.h` — the containing cell index (floor of the index-space
coordinate) and the fractional offset, clamped to the valid index range
`[0, i_high - 2]` so that out-of-range queries are clamped rather than
failing (spec §4.1).  All call sites of the source use `i_low = 0`. -/
def get_barycentric (x : ℚ) (i_high : ℕ) : ℕ × ℚ :=
  let s : ℤ := ⌊x⌋
  if s < 0 then (0, 0)
  else if (i_high : ℤ) - 2 < s then (i_high - 2, 1)
  else (s.toNat, x - (s : ℚ))

/-- Modelled from the spec: `interpolate_value(point, grid)` — bilinear
interpolation of a grid at an index-space position, with clamping.
`gni`/`gnj` are the grid's dimensions. -/
def interpolate_value (point : Vec2) (grid : Grid) (gni gnj : ℕ) : ℚ :=
  let bx := get_barycentric point.1 gni
  let by_ := get_barycentric point.2 gnj
  bilerp (grid bx.1 by_.1) (grid (bx.1 + 1) by_.1)
    (grid bx.1 (by_.1 + 1)) (grid (bx.1 + 1) (by_.1 + 1)) bx.2 by_.2

/-- Modelled from the spec: `interpolate_gradient(gradient, point, grid)` —
the (unnormalised) finite-difference gradient of the bilinear interpolant
at an index-space position, at the same staggered offsets used for value
interpolation (spec §4.1). -/
def interpolate_gradient (point : Vec2) (grid : Grid) (gni gnj : ℕ) : Vec2 :=
  let bx := get_barycentric point.1 gni
  let by_ := get_barycentric point.2 gnj
  let v00 := grid bx.1 by_.1
  let v10 := grid (bx.1 + 1) by_.1
  let v01 := grid bx.1 (by_.1 + 1)
  let v11 := grid (bx.1 + 1) (by_.1 + 1)
  (lerp (v10 - v00) (v11 - v01) by_.2, lerp (v01 - v00) (v11 - v10) bx.2)

/-- `fraction_inside(phi_left, phi_right)` from `fluidsim.cpp`: the fraction
of a segment between two signed-distance samples that is inside (negative). -/
def fraction_inside (phi_left phi_right : ℚ) : ℚ :=
  if phi_left < 0 ∧ phi_right < 0 then 1
  else if phi_left < 0 ∧ 0 ≤ phi_right then phi_left / (phi_left - phi_right)
  else if 0 ≤ phi_left ∧ phi_right < 0 then phi_right / (phi_right - phi_left)
  else 0

/-- The state of the simulation: the data members of class `FluidSim`
(`fluidsim.h`).  Array shapes are fixed by `ni`,`nj` as allocated in
`initialize`: `u`,`u_weights`,`u_vol`,`u_valid` are (ni+1)×nj; `v` and its
companions are ni×(nj+1); `nodal_solid_phi` and `n_vol` are (ni+1)×(nj+1);
`liquid_phi`, `viscosity` and `c_vol` are ni×nj.  The scratch buffers
`temp_u`/`temp_v`/`old_valid` and the solver buffers are not part of the
observable state: the scratch-and-swap passes are modelled as simultaneous
pointwise updates and the solver outputs as oracles. -/
structure FluidSim where
  ni : ℕ
  nj : ℕ
  dx : ℚ
  u : Grid
  v : Grid
  nodal_solid_phi : Grid
  u_valid : BGrid
  v_valid : BGrid
  liquid_phi : Grid
  u_weights : Grid
  v_weights : Grid
  u_vol : Grid
  v_vol : Grid
  c_vol : Grid
  n_vol : Grid
  viscosity : Grid
  particles : List Vec2
  particle_radius : ℚ

/-- The external collaborators of the core, as unconstrained oracles:
the two sparse linear solves (`PCGSolver<double>::solve` on the pressure
and viscosity systems — the assembled matrix and right-hand side are
deterministic functions of the simulation state at the call, so the
returned solution vector is modelled as an arbitrary function of that
state), and the C library square root used by `vec.h`'s `mag`, `dist`
and `normalize`. -/
structure Oracle where
  pressure_solve : FluidSim → ℕ → ℚ
  viscosity_solve : FluidSim → ℕ → ℚ
  sqrtf : ℚ → ℚ

/-- Modelled from the spec: `mag(v)` from `vec.h` — Euclidean norm, via the square-root oracle. -/
def mag (ora : Oracle) (a : Vec2) : ℚ := ora.sqrtf (a.1 * a.1 + a.2 * a.2)

/-- Modelled from the spec: `normalize(v)` from `vec.h` — `v /= mag(v)`. -/
def normalizeV (ora : Oracle) (a : Vec2) : Vec2 :=
  (a.1 / mag ora a, a.2 / mag ora a)

/-- Modelled from the spec: `dist(a, b)` from `vec.h`. -/
def distV (ora : Oracle) (a b : Vec2) : ℚ := mag ora (vsub a b)

namespace FluidSim

/-- `FluidSim::get_velocity(position)`: bilinear interpolation of both
staggered velocity components at a world-space position (`fluidsim.cpp`
lines 280–287). -/
def get_velocity (s : FluidSim) (position : Vec2) : Vec2 :=
  (interpolate_value (position.1 / s.dx - 0, position.2 / s.dx - 1/2) s.u (s.ni + 1) s.nj,
   interpolate_value (position.1 / s.dx - 1/2, position.2 / s.dx - 0) s.v s.ni (s.nj + 1))

/-- `FluidSim::trace_rk2(position, dt)`: explicit midpoint rule
(`fluidsim.cpp` lines 271–277). -/
def trace_rk2 (s : FluidSim) (position : Vec2) (dt : ℚ) : Vec2 :=
  let velocity := get_velocity s position
  let velocity2 := get_velocity s (vadd position (vscale (dt / 2) velocity))
  vadd position (vscale dt velocity2)

/-- The update of one particle inside `FluidSim::advect_particles`
(`fluidsim.cpp` lines 181–206): midpoint-rule motion followed by the
push-back along the solid's distance gradient when the new position has
penetrated the solid. -/
def advect_particle (ora : Oracle) (s : FluidSim) (dt : ℚ) (p : Vec2) : Vec2 :=
  let start_velocity := get_velocity s p
  let midpoint := vadd p (vscale (dt / 2) start_velocity)
  let mid_velocity := get_velocity s midpoint
  let p1 := vadd p (vscale dt mid_velocity)
  let phi_value := interpolate_value (vscale (1 / s.dx) p1) s.nodal_solid_phi (s.ni + 1) (s.nj + 1)
  if phi_value < 0 then
    let normal := normalizeV ora (interpolate_gradient (vscale (1 / s.dx) p1) s.nodal_solid_phi (s.ni + 1) (s.nj + 1))
    vsub p1 (vscale phi_value normal)
  else p1

/-- `FluidSim::advect_particles(dt)`: every particle is moved in place;
none is created or destroyed (`fluidsim.cpp` lines 179–208). -/
def advect_particles (ora : Oracle) (dt : ℚ) (s : FluidSim) : FluidSim :=
  { s with particles := s.particles.map (advect_particle ora s dt) }

/-- The containing cell of a particle in `FluidSim::compute_phi`
(`get_barycentric(point/dx - 0.5, i, fx, 0, ni)`). -/
def particle_cell (s : FluidSim) (p : Vec2) : ℕ × ℕ :=
  ((get_barycentric (p.1 / s.dx - 1/2) s.ni).1,
   (get_barycentric (p.2 / s.dx - 1/2) s.nj).1)

/-- The particle pass of `FluidSim::compute_phi` at one cell: starting
from the constant `3*dx`, take the minimum of
`dist(cell centre, particle) - 1.02*particle_radius` over every particle
whose 5×5 stamp covers the cell (`fluidsim.cpp` lines 214–232). -/
def compute_phi_particles (ora : Oracle) (s : FluidSim) (i j : ℕ) : ℚ :=
  s.particles.foldl (fun acc p =>
    let c := particle_cell s p
    if (i : ℤ) ≤ (c.1 : ℤ) + 2 ∧ (c.1 : ℤ) ≤ (i : ℤ) + 2 ∧
       (j : ℤ) ≤ (c.2 : ℤ) + 2 ∧ (c.2 : ℤ) ≤ (j : ℤ) + 2 then
      min acc (distV ora (((i : ℚ) + 1/2) * s.dx, ((j : ℚ) + 1/2) * s.dx) p - (51/50) * s.particle_radius)
    else acc) (3 * s.dx)

/-- `FluidSim::compute_phi()`: particle-based liquid distance estimate,
then the extrapolation of `liquid_phi` into nearby solid cells
(`fluidsim.cpp` lines 211–244). -/
def compute_phi (ora : Oracle) (s : FluidSim) : FluidSim :=
  { s with liquid_phi := fun i j =>
      if i < s.ni ∧ j < s.nj then
        let r := compute_phi_particles ora s i j
        if r < s.dx / 2 ∧
           (s.nodal_solid_phi i j + s.nodal_solid_phi (i+1) j +
            s.nodal_solid_phi i (j+1) + s.nodal_solid_phi (i+1) (j+1)) / 4 < 0 then
          -(s.dx / 2)
        else r
      else s.liquid_phi i j }

/-- `FluidSim::advect(dt)`: semi-Lagrangian advection of both velocity
components, written to scratch and swapped in (`fluidsim.cpp` lines
157–176); modelled as a simultaneous pointwise update reading the
pre-call state. -/
def advect (dt : ℚ) (s : FluidSim) : FluidSim :=
  { s with
    u := fun i j =>
      if i < s.ni + 1 ∧ j < s.nj then
        (get_velocity s (trace_rk2 s ((i : ℚ) * s.dx, ((j : ℚ) + 1/2) * s.dx) (-dt))).1
      else s.u i j,
    v := fun i j =>
      if i < s.ni ∧ j < s.nj + 1 then
        (get_velocity s (trace_rk2 s (((i : ℚ) + 1/2) * s.dx, (j : ℚ) * s.dx) (-dt))).2
      else s.v i j }

/-- `FluidSim::add_force(dt)`: subtracts `0.1` from every entry of `v`;
the `dt` argument is not used by the body (`fluidsim.cpp` lines 97–103). -/
def add_force (dt : ℚ) (s : FluidSim) : FluidSim :=
  { s with v := fun i j =>
      if i < s.ni ∧ j < s.nj + 1 then s.v i j - 1/10 else s.v i j }

/-- `compute_volume_fractions(levelset, fractions, fraction_origin,
subdivision)` at one entry of `fractions`: the fraction of `subdivision²`
sub-samples of the control region whose interpolated level-set value is
negative (`fluidsim.cpp` lines 317–341). -/
def compute_volume_fractions (levelset : Grid) (lni lnj : ℕ) (fraction_origin : Vec2)
    (subdivision : ℕ) (i j : ℕ) : ℚ :=
  let sub_dx : ℚ := 1 / (subdivision : ℚ)
  let incount :=
    (List.range subdivision).foldl (fun acc sub_j =>
      (List.range subdivision).foldl (fun acc2 sub_i =>
        let x_pos := fraction_origin.1 + (i : ℚ) + ((sub_i : ℚ) + 1/2) * sub_dx
        let y_pos := fraction_origin.2 + (j : ℚ) + ((sub_j : ℚ) + 1/2) * sub_dx
        if interpolate_value (x_pos, y_pos) levelset lni lnj < 0 then acc2 + 1 else acc2)
        acc) 0
  (incount : ℚ) / ((subdivision * subdivision : ℕ) : ℚ)

/-- `FluidSim::compute_viscosity_weights()` (`fluidsim.cpp` lines 343–350). -/
def compute_viscosity_weights (s : FluidSim) : FluidSim :=
  { s with
    c_vol := fun i j =>
      if i < s.ni ∧ j < s.nj then
        compute_volume_fractions s.liquid_phi s.ni s.nj (-(1/2), -(1/2)) 2 i j
      else s.c_vol i j,
    n_vol := fun i j =>
      if i < s.ni + 1 ∧ j < s.nj + 1 then
        compute_volume_fractions s.liquid_phi s.ni s.nj (-1, -1) 2 i j
      else s.n_vol i j,
    u_vol := fun i j =>
      if i < s.ni + 1 ∧ j < s.nj then
        compute_volume_fractions s.liquid_phi s.ni s.nj (-1, -(1/2)) 2 i j
      else s.u_vol i j,
    v_vol := fun i j =>
      if i < s.ni ∧ j < s.nj + 1 then
        compute_volume_fractions s.liquid_phi s.ni s.nj (-(1/2), -1) 2 i j
      else s.v_vol i j }

/-- `FluidSim::u_ind(i, j)` (`fluidsim.cpp` lines 477–479). -/
def u_ind (s : FluidSim) (i j : ℕ) : ℕ := i + j * (s.ni + 1)

/-- `FluidSim::v_ind(i, j)` (`fluidsim.cpp` lines 481–483). -/
def v_ind (s : FluidSim) (i j : ℕ) : ℕ := i + j * s.ni + (s.ni + 1) * s.nj

/-- The `u_state` classification of `FluidSim::solve_viscosity`: a u-face is
SOLID (`true`) when `i - 1 < 0`, `i >= ni`, or the average of its two
bracketing solid-distance node samples is non-positive; FLUID (`false`)
otherwise (`fluidsim.cpp` lines 500–509). -/
def u_solid_state (s : FluidSim) (i j : ℕ) : Bool :=
  decide (i = 0 ∨ s.ni ≤ i ∨ (s.nodal_solid_phi i (j+1) + s.nodal_solid_phi i j) / 2 ≤ 0)

/-- The `v_state` classification of `FluidSim::solve_viscosity`
(`fluidsim.cpp` lines 512–519). -/
def v_solid_state (s : FluidSim) (i j : ℕ) : Bool :=
  decide (j = 0 ∨ s.nj ≤ j ∨ (s.nodal_solid_phi (i+1) j + s.nodal_solid_phi i j) / 2 ≤ 0)

/-- `FluidSim::solve_viscosity(dt)`: classify every face, solve the
assembled variational viscosity system (the solver is the oracle), then
overwrite every FLUID face with the corresponding solution entry and
every SOLID face with the fixed obstacle velocity `u_obj = v_obj = 0`
(`fluidsim.cpp` lines 486–700; the final assignment loops are lines
685–699). -/
def solve_viscosity (ora : Oracle) (dt : ℚ) (s : FluidSim) : FluidSim :=
  let velocities := ora.viscosity_solve s
  { s with
    u := fun i j =>
      if i < s.ni + 1 ∧ j < s.nj then
        (if u_solid_state s i j then 0 else velocities (u_ind s i j))
      else s.u i j,
    v := fun i j =>
      if i < s.ni ∧ j < s.nj + 1 then
        (if v_solid_state s i j then 0 else velocities (v_ind s i j))
      else s.v i j }

/-- `FluidSim::apply_viscosity(dt)` (`fluidsim.cpp` lines 258–268). -/
def apply_viscosity (ora : Oracle) (dt : ℚ) (s : FluidSim) : FluidSim :=
  solve_viscosity ora dt (compute_viscosity_weights s)

/-- `FluidSim::compute_pressure_weights()`: fractional open-area face
weights from the nodal solid distances, clamped to [0, 1]
(`fluidsim.cpp` lines 303–314). -/
def compute_pressure_weights (s : FluidSim) : FluidSim :=
  { s with
    u_weights := fun i j =>
      if i < s.ni + 1 ∧ j < s.nj then
        clampQ (1 - fraction_inside (s.nodal_solid_phi i (j+1)) (s.nodal_solid_phi i j)) 0 1
      else s.u_weights i j,
    v_weights := fun i j =>
      if i < s.ni ∧ j < s.nj + 1 then
        clampQ (1 - fraction_inside (s.nodal_solid_phi (i+1) j) (s.nodal_solid_phi i j)) 0 1
      else s.v_weights i j }

/-- The free-surface fraction used by the velocity update of
`FluidSim::solve_pressure`: 1 when both bracketing liquid samples are
inside, otherwise `fraction_inside` of the two, floored at `0.01`. -/
def pressure_theta (phi_a phi_b : ℚ) : ℚ :=
  let theta := if 0 ≤ phi_b ∨ 0 ≤ phi_a then fraction_inside phi_a phi_b else 1
  if theta < 1/100 then 1/100 else theta

/-- `FluidSim::solve_pressure(dt)`: solve the assembled pressure system
(the solver is the oracle) and apply the velocity update, producing the
validity masks (`fluidsim.cpp` lines 353–475; the velocity update is
lines 446–473).  Only faces inside the update loops' bounds are written;
every other face keeps its value.  The local `ni`/`nj` of the source are
`v.ni = ni` and `u.nj = nj`. -/
def solve_pressure (ora : Oracle) (dt : ℚ) (s : FluidSim) : FluidSim :=
  let pressure := ora.pressure_solve s
  { s with
    u := fun i j =>
      if 1 ≤ i ∧ i < s.ni ∧ j < s.nj then
        (if 0 < s.u_weights i j ∧ (s.liquid_phi i j < 0 ∨ s.liquid_phi (i-1) j < 0) then
          s.u i j - dt * (pressure (i + j * s.ni) - pressure (i - 1 + j * s.ni)) / s.dx /
            pressure_theta (s.liquid_phi (i-1) j) (s.liquid_phi i j)
        else 0)
      else s.u i j,
    u_valid := fun i j =>
      if i < s.ni + 1 ∧ j < s.nj then
        decide (1 ≤ i ∧ i < s.ni ∧
          (0 < s.u_weights i j ∧ (s.liquid_phi i j < 0 ∨ s.liquid_phi (i-1) j < 0)))
      else s.u_valid i j,
    v := fun i j =>
      if 1 ≤ j ∧ j < s.nj ∧ i < s.ni then
        (if 0 < s.v_weights i j ∧ (s.liquid_phi i j < 0 ∨ s.liquid_phi i (j-1) < 0) then
          s.v i j - dt * (pressure (i + j * s.ni) - pressure (i + (j-1) * s.ni)) / s.dx /
            pressure_theta (s.liquid_phi i (j-1)) (s.liquid_phi i j)
        else 0)
      else s.v i j,
    v_valid := fun i j =>
      if i < s.ni ∧ j < s.nj + 1 then
        decide (1 ≤ j ∧ j < s.nj ∧
          (0 < s.v_weights i j ∧ (s.liquid_phi i j < 0 ∨ s.liquid_phi i (j-1) < 0)))
      else s.v_valid i j }

/-- `FluidSim::apply_projection(dt)` (`fluidsim.cpp` lines 248–256). -/
def apply_projection (ora : Oracle) (dt : ℚ) (s : FluidSim) : FluidSim :=
  solve_pressure ora dt (compute_pressure_weights s)

end FluidSim

/-- The four grid-neighbours of a face, in the order `extrapolate`
visits them: right, left, up, down. -/
def face_neighbours (c : ℕ × ℕ) : List (ℕ × ℕ) :=
  [(c.1 + 1, c.2), (c.1 - 1, c.2), (c.1, c.2 + 1), (c.1, c.2 - 1)]

/-- The start-of-pass valid neighbours of an interior face in
`extrapolate` (`fluidsim.cpp` lines 716–733). -/
def valid_neighbours (old_valid : BGrid) (i j : ℕ) : List (ℕ × ℕ) :=
  (face_neighbours (i, j)).filter fun c => old_valid c.1 c.2

/-- One pass of `extrapolate` over a grid/validity pair with dimensions
`ni × nj`: every interior face that is invalid at the start of the pass
and has at least one valid neighbour receives the average of the valid
neighbours' start-of-pass values and becomes valid (`fluidsim.cpp` lines
709–746; reads go to the `old_valid` snapshot and the pre-pass grid,
writes to the scratch copy that is swapped in). -/
def extrapolate_pass (ni nj : ℕ) (gv : Grid × BGrid) : Grid × BGrid :=
  (fun i j =>
    if 1 ≤ i ∧ i + 1 < ni ∧ 1 ≤ j ∧ j + 1 < nj ∧ gv.2 i j = false then
      let nb := valid_neighbours gv.2 i j
      if 0 < nb.length then
        (nb.foldl (fun sum c => sum + gv.1 c.1 c.2) 0) / (nb.length : ℚ)
      else gv.1 i j
    else gv.1 i j,
   fun i j =>
    if 1 ≤ i ∧ i + 1 < ni ∧ 1 ≤ j ∧ j + 1 < nj ∧ gv.2 i j = false ∧
       0 < (valid_neighbours gv.2 i j).length then
      true
    else gv.2 i j)

/-- `extrapolate(grid, valid)`: exactly 10 passes of the Jacobi-style
flood fill (`fluidsim.cpp` lines 706–748). -/
def extrapolate (ni nj : ℕ) (gv : Grid × BGrid) : Grid × BGrid :=
  (extrapolate_pass ni nj)^[10] gv

namespace FluidSim

/-- The call `extrapolate(u, u_valid)` of `FluidSim::advance`. -/
def extrapolate_u (s : FluidSim) : FluidSim :=
  let r := extrapolate (s.ni + 1) s.nj (s.u, s.u_valid)
  { s with u := r.1, u_valid := r.2 }

/-- The call `extrapolate(v, v_valid)` of `FluidSim::advance`. -/
def extrapolate_v (s : FluidSim) : FluidSim :=
  let r := extrapolate s.ni (s.nj + 1) (s.v, s.v_valid)
  { s with v := r.1, v_valid := r.2 }

/-- The world-space sample position of the u-face `(i, j)`:
`Vec2f pos(i*dx, (j+0.5f)*dx)`. -/
def u_face_position (s : FluidSim) (i j : ℕ) : Vec2 :=
  ((i : ℚ) * s.dx, ((j : ℚ) + 1/2) * s.dx)

/-- The world-space sample position of the v-face `(i, j)`:
`Vec2f pos((i+0.5f)*dx, j*dx)`. -/
def v_face_position (s : FluidSim) (i j : ℕ) : Vec2 :=
  (((i : ℚ) + 1/2) * s.dx, (j : ℚ) * s.dx)

/-- The unnormalised solid-distance gradient sampled at a world-space
position (`interpolate_gradient(normal, pos/dx, nodal_solid_phi)`). -/
def solid_gradient (s : FluidSim) (pos : Vec2) : Vec2 :=
  interpolate_gradient (vscale (1 / s.dx) pos) s.nodal_solid_phi (s.ni + 1) (s.nj + 1)

/-- The normalised solid-distance gradient at a world-space position
(the `normal` of `constrain_velocity` after `normalize(normal)`). -/
def solid_normal (ora : Oracle) (s : FluidSim) (pos : Vec2) : Vec2 :=
  normalizeV ora (solid_gradient s pos)

/-- The velocity vector `constrain_velocity` builds at a constrained face:
the sampled velocity minus its component along the normalised solid
gradient (`vel -= perp_component*normal`). -/
def constrained_velocity (ora : Oracle) (s : FluidSim) (pos : Vec2) : Vec2 :=
  let vel := get_velocity s pos
  let normal := solid_normal ora s pos
  let perp_component := vdot vel normal
  vsub vel (vscale perp_component normal)

/-- `FluidSim::constrain_velocity()`: at every face whose pressure-stage
weight is exactly zero, replace the stored component by the corresponding
component of the sampled velocity with its normal component (along the
normalised solid-distance gradient) removed; both passes read the
pre-call fields through scratch copies (`fluidsim.cpp` lines 107–149). -/
def constrain_velocity (ora : Oracle) (s : FluidSim) : FluidSim :=
  { s with
    u := fun i j =>
      if i < s.ni + 1 ∧ j < s.nj ∧ s.u_weights i j = 0 then
        (constrained_velocity ora s (u_face_position s i j)).1
      else s.u i j,
    v := fun i j =>
      if i < s.ni ∧ j < s.nj + 1 ∧ s.v_weights i j = 0 then
        (constrained_velocity ora s (v_face_position s i j)).2
      else s.v i j }

/-- The linear storage of `u` (`Array2.a`, row-major: `a[i + j*ni]`). -/
def u_entries (s : FluidSim) : List ℚ :=
  (List.range ((s.ni + 1) * s.nj)).map fun k => s.u (k % (s.ni + 1)) (k / (s.ni + 1))

/-- The linear storage of `v`. -/
def v_entries (s : FluidSim) : List ℚ :=
  (List.range (s.ni * (s.nj + 1))).map fun k => s.v (k % s.ni) (k / s.ni)

/-- The `maxvel` accumulator of `FluidSim::cfl`: starting from 0, the
running maximum of the absolute values of all entries of `u.a` then `v.a`
(`fluidsim.cpp` lines 52–56). -/
def maxvel (s : FluidSim) : ℚ :=
  (u_entries s ++ v_entries s).foldl (fun m x => max m |x|) 0

/-- `FluidSim::cfl()`: `dx / maxvel` with no special case for a zero
velocity field (`fluidsim.cpp` lines 51–58). -/
def cfl (s : FluidSim) : ℚ := s.dx / maxvel s

/-- One sub-step of `FluidSim::advance`, in source order: particle
advection, surface reconstruction, velocity advection, external force,
viscosity solve, pressure projection, extrapolation of both components,
solid boundary constraint (`fluidsim.cpp` lines 69–91). -/
def sub_step (ora : Oracle) (substep : ℚ) (s : FluidSim) : FluidSim :=
  constrain_velocity ora
    (extrapolate_v
      (extrapolate_u
        (apply_projection ora substep
          (apply_viscosity ora substep
            (add_force substep
              (advect substep
                (compute_phi ora
                  (advect_particles ora substep s))))))))

end FluidSim

/-- One iteration of the sub-stepping loop of `FluidSim::advance`
(`fluidsim.cpp` lines 61–95), over an abstract state type: if `t < dt`,
take `substep = cfl`, clip it to `dt - t` when `t + substep > dt`, run
the sub-step's stages and accumulate `t += substep`; otherwise stop.
`FluidSim.advance` instantiates `S` with the simulation state. -/
def advance_step {S : Type} (cflF : S → ℚ) (stepF : S → ℚ → S) (dt : ℚ)
    (ts : ℚ × S) : ℚ × S :=
  if ts.1 < dt then
    let substep0 := cflF ts.2
    let substep := if dt < ts.1 + substep0 then dt - ts.1 else substep0
    (ts.1 + substep, stepF ts.2 substep)
  else ts

/-- The trace of the sub-stepping loop: accumulated time and state after
`n` iterations, starting from `t = 0`. -/
def advance_trace {S : Type} (cflF : S → ℚ) (stepF : S → ℚ → S) (dt : ℚ)
    (s0 : S) (n : ℕ) : ℚ × S :=
  (advance_step cflF stepF dt)^[n] (0, s0)

/-- The loop of `advance` has consumed the whole interval after some
number of iterations (the `while(t < dt)` guard has become false). -/
def advance_consumes {S : Type} (cflF : S → ℚ) (stepF : S → ℚ → S) (dt : ℚ)
    (s0 : S) : Prop :=
  ∃ n, ¬ (advance_trace cflF stepF dt s0 n).1 < dt

/-- The CFL value is positive at every iterate of the sub-stepping loop. -/
def cfl_positive_on_trace {S : Type} (cflF : S → ℚ) (stepF : S → ℚ → S) (dt : ℚ)
    (s0 : S) : Prop :=
  ∀ n, 0 < cflF (advance_trace cflF stepF dt s0 n).2

namespace FluidSim

/-- `FluidSim::advance(dt)`: the CFL-bounded sub-stepping loop, with the
number of loop iterations bounded by explicit fuel (the source's `while`
loop has no built-in bound; every theorem about `advance` holds for every
fuel value). -/
def advance (ora : Oracle) (dt : ℚ) (fuel : ℕ) (s : FluidSim) : FluidSim :=
  (advance_trace cfl (fun s' substep => sub_step ora substep s') dt s fuel).2

end FluidSim

/-- An index pair is an interior face of an `ni × nj` grid: the index
range visited by `extrapolate`'s pass loops. -/
def interior_face (ni nj : ℕ) (c : ℕ × ℕ) : Bool :=
  decide (1 ≤ c.1 ∧ c.1 + 1 < ni ∧ 1 ≤ c.2 ∧ c.2 + 1 < nj)

/-- Flood-fill distance at most `k` from a valid face, through interior
faces: a face is within distance 0 iff it is itself valid; it is within
distance `k+1` iff it is valid, or it is an interior face one of whose
four neighbours is within distance `k`.  (Only interior faces can relay
the fill, since only they are ever written by a pass.) -/
def within_flood_dist (valid : BGrid) (ni nj : ℕ) : ℕ → ℕ × ℕ → Bool
  | 0, c => valid c.1 c.2
  | k + 1, c =>
    valid c.1 c.2 ||
      (interior_face ni nj c &&
        (face_neighbours c).any fun d => within_flood_dist valid ni nj k d)

/-- The CFL sequence of a loop trace in which the sub-steps halve forever:
with `dt = 1` the accumulated time after `n` iterations is `1 - (1/2)^n`,
which never reaches `dt` although every sub-step is positive. -/
def zeno_cfl (n : ℕ) : ℚ := (1/2) ^ (n + 1)

/-- The state transformer of the halving trace: the abstract state is the
iteration counter. -/
def zeno_step (n : ℕ) (_ : ℚ) : ℕ := n + 1

/-- A trivial oracle: both solvers return zero vectors and the square
root oracle returns 0. -/
def zero_oracle : Oracle :=
  { pressure_solve := fun _ _ => 0, viscosity_solve := fun _ _ => 0, sqrtf := fun _ => 0 }

/-- A concrete 1×1-cell state whose solid distance is negative at all
four grid nodes and whose velocity field is zero. -/
def ex_all_solid : FluidSim :=
  { ni := 1, nj := 1, dx := 1,
    u := fun _ _ => 0, v := fun _ _ => 0,
    nodal_solid_phi := fun _ _ => -1,
    u_valid := fun _ _ => false, v_valid := fun _ _ => false,
    liquid_phi := fun _ _ => 0,
    u_weights := fun _ _ => 0, v_weights := fun _ _ => 0,
    u_vol := fun _ _ => 0, v_vol := fun _ _ => 0,
    c_vol := fun _ _ => 0, n_vol := fun _ _ => 0,
    viscosity := fun _ _ => 1,
    particles := [], particle_radius := 1 }

/-- A concrete 1×1-cell open-domain state with one unit velocity entry,
so that `maxvel = 1` and `cfl = dx / 1 = 1`. -/
def ex_unit_vel : FluidSim :=
  { ni := 1, nj := 1, dx := 1,
    u := fun i j => if i = 0 ∧ j = 0 then 1 else 0, v := fun _ _ => 0,
    nodal_solid_phi := fun _ _ => 1,
    u_valid := fun _ _ => false, v_valid := fun _ _ => false,
    liquid_phi := fun _ _ => 1,
    u_weights := fun _ _ => 0, v_weights := fun _ _ => 0,
    u_vol := fun _ _ => 0, v_vol := fun _ _ => 0,
    c_vol := fun _ _ => 0, n_vol := fun _ _ => 0,
    viscosity := fun _ _ => 1,
    particles := [(1/2, 1/2)], particle_radius := 1 }

/-- The 3×3-cell state of the boundary-constraint counterexample, before
the pressure-stage weights are computed.  The solid distance is negative
at nodes (1,1) and (1,2) only, making the u-face (1,1) the unique face of
zero weight, with solid-distance gradient (3,4) there. -/
def ex_constrain_base : FluidSim :=
  { ni := 3, nj := 3, dx := 1,
    u := fun i j => if i = 1 ∧ j = 1 then 1 else 0,
    v := fun _ _ => 1,
    nodal_solid_phi := fun i j =>
      if i = 1 ∧ j = 1 then -(9/2)
      else if i = 1 ∧ j = 2 then -(1/2)
      else if i = 2 ∧ (j = 1 ∨ j = 2) then 1/2
      else 1,
    u_valid := fun _ _ => false, v_valid := fun _ _ => false,
    liquid_phi := fun _ _ => 0,
    u_weights := fun _ _ => 0, v_weights := fun _ _ => 0,
    u_vol := fun _ _ => 0, v_vol := fun _ _ => 0,
    c_vol := fun _ _ => 0, n_vol := fun _ _ => 0,
    viscosity := fun _ _ => 1,
    particles := [], particle_radius := 1 }

/-- The counterexample state with its pressure-stage face weights
computed from the solid distances. -/
def ex_constrain : FluidSim := FluidSim.compute_pressure_weights ex_constrain_base

/-- An oracle whose square root is exact at 25 (the squared magnitude of
the one solid gradient `constrain_velocity` normalises on `ex_constrain`). -/
def ex_constrain_oracle : Oracle :=
  { pressure_solve := fun _ _ => 0, viscosity_solve := fun _ _ => 0,
    sqrtf := fun x => if x = 25 then 5 else 0 }

/-- A 4×4 grid/validity pair for exercising `extrapolate`: only the face
`(1, 2)` is valid. -/
def ex_grid : Grid := fun _ _ => 0

/-- The validity mask with `(1, 2)` the only valid face. -/
def ex_valid : BGrid := fun i j => decide (i = 1 ∧ j = 2)

/-- The square-root oracle is exact and nonzero on the squared magnitude
of a vector (as the C library `sqrt` is, up to rounding, whenever the
squared magnitude is positive). -/
def mag_exact (ora : Oracle) (a : Vec2) : Prop :=
  mag ora a * mag ora a = a.1 * a.1 + a.2 * a.2 ∧ mag ora a ≠ 0

/-- Two states agree on the static data: grid dimensions, cell size,
solid distance field and viscosity field. -/
def FluidSim.static_eq (a b : FluidSim) : Prop :=
  a.ni = b.ni ∧ a.nj = b.nj ∧ a.dx = b.dx ∧
  a.nodal_solid_phi = b.nodal_solid_phi ∧ a.viscosity = b.viscosity

/-! ## Properties of `fraction_inside` (claim C3) -/

/-- `fraction_inside` is symmetric in its two arguments. -/
theorem fraction_inside_comm (l r : ℚ) : fraction_inside l r = fraction_inside r l := by
  unfold fraction_inside
  rcases lt_or_le l 0 with hl | hl <;> rcases lt_or_le r 0 with hr | hr <;>
    simp [hl, hr, not_lt.2, le_of_lt, not_lt_of_le]

/-- On mixed strict signs the value is `(-l)/(r-l)` (left sample negative). -/
theorem fraction_inside_mixed_eq (l r : ℚ) (hl : l < 0) (hr : 0 ≤ r) :
    fraction_inside l r = (-l) / (r - l) := by
  unfold fraction_inside
  rw [if_neg (by rintro ⟨-, h⟩; exact absurd hr (not_le.2 h)), if_pos ⟨hl, hr⟩]
  rw [show l / (l - r) = -l / -(l - r) by rw [neg_div_neg_eq], neg_sub]

/-- Continuity of `fraction_inside` in its first argument at 0, when the
second argument is nonzero. -/
theorem fraction_inside_cont_left (r : ℚ) (hr : r ≠ 0) (ε : ℚ) (hε : 0 < ε) :
    ∃ δ : ℚ, 0 < δ ∧ ∀ l : ℚ, |l| < δ →
      |fraction_inside l r - fraction_inside 0 r| < ε := by
  refine ⟨ε * |r|, mul_pos hε (abs_pos.2 hr), fun l hl => ?_⟩
  rcases lt_or_gt_of_ne hr with hrneg | hrpos
  · -- r < 0 : the value is 1 for l ≤ 0 and r/(r-l) for l ≥ 0
    have h0 : fraction_inside 0 r = 1 := by
      rw [fraction_inside_comm, fraction_inside_mixed_eq r 0 hrneg le_rfl]
      rw [zero_sub, neg_div_neg_eq, div_self hr]
    rcases lt_or_le l 0 with hlneg | hlpos
    · have h1 : fraction_inside l r = 1 := by
        unfold fraction_inside; rw [if_pos ⟨hlneg, hrneg⟩]
      rw [h0, h1, sub_self, abs_zero]; exact hε
    · have h1 : fraction_inside l r = (-r) / (l - r) := by
        rw [fraction_inside_comm]
        exact fraction_inside_mixed_eq r l hrneg hlpos
      have hlr : 0 < l - r := by linarith
      have habs : |fraction_inside l r - fraction_inside 0 r| = l / (l - r) := by
        rw [h0, h1]
        have : (-r) / (l - r) - 1 = -(l / (l - r)) := by
          field_simp
          ring
        rw [this, abs_neg, abs_of_nonneg (div_nonneg hlpos (le_of_lt hlr))]
      rw [habs]
      have hrabs : |r| = -r := abs_of_neg hrneg
      have step1 : l / (l - r) ≤ l / (-r) := by
        apply div_le_div_of_nonneg_left hlpos (by linarith) (by linarith)
      have step2 : l / (-r) < ε := by
        rw [div_lt_iff (by linarith)]
        calc l = |l| := (abs_of_nonneg hlpos).symm
        _ < ε * |r| := hl
        _ = ε * (-r) := by rw [hrabs]
      linarith
  · -- 0 < r : the value is 0 for l ≥ 0 and (-l)/(r-l) for l ≤ 0
    have h0 : fraction_inside 0 r = 0 := by
      unfold fraction_inside
      simp [not_lt.2 (le_of_lt hrpos), le_refl]
    rcases lt_or_le l 0 with hlneg | hlpos
    · have h1 : fraction_inside l r = (-l) / (r - l) := by
        exact fraction_inside_mixed_eq l r hlneg (le_of_lt hrpos)
      have hlr : 0 < r - l := by linarith
      have habs : |fraction_inside l r - fraction_inside 0 r| = (-l) / (r - l) := by
        rw [h0, h1, sub_zero,
          abs_of_nonneg (div_nonneg (by linarith) (le_of_lt hlr))]
      rw [habs]
      have hrabs : |r| = r := abs_of_pos hrpos
      have step1 : (-l) / (r - l) ≤ (-l) / r := by
        apply div_le_div_of_nonneg_left (by linarith) hrpos (by linarith)
      have step2 : (-l) / r < ε := by
        rw [div_lt_iff hrpos]
        calc -l = |l| := (abs_of_neg hlneg).symm
        _ < ε * |r| := hl
        _ = ε * r := by rw [hrabs]
      linarith
    · have h1 : fraction_inside l r = 0 := by
        unfold fraction_inside
        simp [not_lt.2 hlpos, not_lt.2 (le_of_lt hrpos)]
      rw [h0, h1, sub_self, abs_zero]; exact hε

/-- C3 (counterexample): at the mixed-sign input `(-1, 0)` (left sample
negative, right sample non-negative), `fraction_inside` returns exactly 1,
not a value strictly between 0 and 1 as the claim states. -/
theorem fraction_inside_mixed_not_strict :
    ((-1 : ℚ) < 0 ∧ (0 : ℚ) ≤ 0) ∧ fraction_inside (-1) 0 = 1 ∧
      ¬ (0 < fraction_inside (-1) 0 ∧ fraction_inside (-1) 0 < 1) := by
  with_unfolding_all decide

/-- C3 (amended): `fraction_inside` returns 1 on (negative, negative), 0 on
(non-negative, non-negative), a value strictly between 0 and 1 when one
input is negative and the other strictly positive; when one input is
negative and the other is exactly 0 it returns 1 (the boundary case the
original claim misses); and it is continuous in each argument as that
argument crosses zero provided the other argument is nonzero (at the other
argument exactly 0 the function jumps from 1 to 0, so the restriction is
necessary). -/
theorem fraction_inside_cases :
    (∀ l r : ℚ, l < 0 → r < 0 → fraction_inside l r = 1) ∧
    (∀ l r : ℚ, 0 ≤ l → 0 ≤ r → fraction_inside l r = 0) ∧
    (∀ l r : ℚ, l < 0 → 0 < r → 0 < fraction_inside l r ∧ fraction_inside l r < 1) ∧
    (∀ l r : ℚ, 0 < l → r < 0 → 0 < fraction_inside l r ∧ fraction_inside l r < 1) ∧
    (∀ l : ℚ, l < 0 → fraction_inside l 0 = 1) ∧
    (∀ r : ℚ, r < 0 → fraction_inside 0 r = 1) ∧
    (∀ r : ℚ, r ≠ 0 → ∀ ε : ℚ, 0 < ε → ∃ δ : ℚ, 0 < δ ∧
      ∀ l : ℚ, |l| < δ → |fraction_inside l r - fraction_inside 0 r| < ε) ∧
    (∀ l : ℚ, l ≠ 0 → ∀ ε : ℚ, 0 < ε → ∃ δ : ℚ, 0 < δ ∧
      ∀ r : ℚ, |r| < δ → |fraction_inside l r - fraction_inside l 0| < ε) := by
  have hmixed : ∀ l r : ℚ, l < 0 → 0 < r →
      0 < fraction_inside l r ∧ fraction_inside l r < 1 := by
    intro l r hl hr
    rw [fraction_inside_mixed_eq l r hl (le_of_lt hr)]
    constructor
    · exact div_pos (by linarith) (by linarith)
    · rw [div_lt_one (by linarith)]; linarith
  refine ⟨?_, ?_, hmixed, ?_, ?_, ?_, fraction_inside_cont_left, ?_⟩
  · intro l r hl hr; unfold fraction_inside; rw [if_pos ⟨hl, hr⟩]
  · intro l r hl hr; unfold fraction_inside
    simp [not_lt.2 hl, not_lt.2 hr]
  · intro l r hl hr
    rw [fraction_inside_comm]; exact hmixed r l hr hl
  · intro l hl
    rw [fraction_inside_mixed_eq l 0 hl le_rfl, zero_sub, neg_div_neg_eq,
      div_self (ne_of_lt hl)]
  · intro r hr
    rw [fraction_inside_comm, fraction_inside_mixed_eq r 0 hr le_rfl, zero_sub,
      neg_div_neg_eq, div_self (ne_of_lt hr)]
  · intro l hl ε hε
    obtain ⟨δ, hδ, h⟩ := fraction_inside_cont_left l hl ε hε
    refine ⟨δ, hδ, fun r hrδ => ?_⟩
    rw [fraction_inside_comm l r, fraction_inside_comm l 0]
    exact h r hrδ

/-! ## `add_force` (claim C10) -/

/-- C10: `add_force(dt)` subtracts exactly `0.1` from every entry of `v`,
independently of `dt` (the argument is unused by the body), and leaves
every entry of `u` (indeed the whole rest of the state) unchanged; hence
every sub-step of `advance` applies the same fixed increment whatever the
sub-step length. -/
theorem FluidSim.add_force_spec :
    (∀ (s : FluidSim) (dt dt' : ℚ), FluidSim.add_force dt s = FluidSim.add_force dt' s) ∧
    (∀ (s : FluidSim) (dt : ℚ), (FluidSim.add_force dt s).u = s.u) ∧
    (∀ (s : FluidSim) (dt : ℚ), ∀ i < s.ni, ∀ j < s.nj + 1,
      (FluidSim.add_force dt s).v i j = s.v i j - 1/10) ∧
    (∀ (s : FluidSim) (dt : ℚ), ∀ i j, ¬ (i < s.ni ∧ j < s.nj + 1) →
      (FluidSim.add_force dt s).v i j = s.v i j) := by
  refine ⟨fun s dt dt' => rfl, fun s dt => rfl, fun s dt i hi j hj => ?_, fun s dt i j h => ?_⟩
  · show (if i < s.ni ∧ j < s.nj + 1 then s.v i j - 1/10 else s.v i j) = s.v i j - 1/10
    rw [if_pos ⟨hi, hj⟩]
  · show (if i < s.ni ∧ j < s.nj + 1 then s.v i j - 1/10 else s.v i j) = s.v i j
    rw [if_neg h]

/-! ## `cfl` (claim C4) -/

/-- The running-maximum accumulator never goes below its start value. -/
theorem foldl_max_abs_le (l : List ℚ) (a : ℚ) :
    a ≤ l.foldl (fun m x => max m |x|) a := by
  induction l generalizing a with
  | nil => exact le_rfl
  | cons hd tl ih => exact le_trans (le_max_left a |hd|) (ih (max a |hd|))

/-- Every element's absolute value is bounded by the running maximum. -/
theorem le_foldl_max_abs (l : List ℚ) (a x : ℚ) (hx : x ∈ l) :
    |x| ≤ l.foldl (fun m y => max m |y|) a := by
  induction l generalizing a with
  | nil => cases hx
  | cons hd tl ih =>
    rcases List.mem_cons.1 hx with rfl | hmem
    · exact le_trans (le_max_right a |x|) (foldl_max_abs_le tl (max a |x|))
    · exact ih (max a |hd|) hmem

/-- If every element is zero, the running maximum started at 0 is 0. -/
theorem foldl_max_abs_zero (l : List ℚ) (h : ∀ x ∈ l, x = 0) :
    l.foldl (fun m y => max m |y|) 0 = 0 := by
  induction l with
  | nil => rfl
  | cons hd tl ih =>
    have hhd : hd = 0 := h hd (List.mem_cons_self hd tl)
    have : max (0 : ℚ) |hd| = 0 := by rw [hhd]; simp
    show List.foldl (fun m y => max m |y|) (max 0 |hd|) tl = 0
    rw [this]
    exact ih fun x hx => h x (List.mem_cons_of_mem hd hx)

/-- In-range entries of `u` occur in the linear storage list. -/
theorem u_mem_entries (s : FluidSim) (i j : ℕ) (hi : i < s.ni + 1) (hj : j < s.nj) :
    s.u i j ∈ FluidSim.u_entries s := by
  have hpos : 0 < s.ni + 1 := Nat.succ_pos _
  refine List.mem_map.2 ⟨i + j * (s.ni + 1), List.mem_range.2 ?_, ?_⟩
  · calc i + j * (s.ni + 1) < (s.ni + 1) + j * (s.ni + 1) := by omega
    _ = (j + 1) * (s.ni + 1) := by ring
    _ ≤ s.nj * (s.ni + 1) := Nat.mul_le_mul_right _ (by omega)
    _ = (s.ni + 1) * s.nj := Nat.mul_comm _ _
  · have hmod : (i + j * (s.ni + 1)) % (s.ni + 1) = i := by
      rw [Nat.add_mul_mod_self_right, Nat.mod_eq_of_lt hi]
    have hdiv : (i + j * (s.ni + 1)) / (s.ni + 1) = j := by
      rw [Nat.add_mul_div_right _ _ hpos, Nat.div_eq_of_lt hi, Nat.zero_add]
    rw [hmod, hdiv]

/-- In-range entries of `v` occur in the linear storage list. -/
theorem v_mem_entries (s : FluidSim) (i j : ℕ) (hpos : 0 < s.ni) (hi : i < s.ni)
    (hj : j < s.nj + 1) : s.v i j ∈ FluidSim.v_entries s := by
  refine List.mem_map.2 ⟨i + j * s.ni, List.mem_range.2 ?_, ?_⟩
  · calc i + j * s.ni < s.ni + j * s.ni := by omega
    _ = (j + 1) * s.ni := by ring
    _ ≤ (s.nj + 1) * s.ni := Nat.mul_le_mul_right _ (by omega)
    _ = s.ni * (s.nj + 1) := Nat.mul_comm _ _
  · have hmod : (i + j * s.ni) % s.ni = i := by
      rw [Nat.add_mul_mod_self_right, Nat.mod_eq_of_lt hi]
    have hdiv : (i + j * s.ni) / s.ni = j := by
      rw [Nat.add_mul_div_right _ _ hpos, Nat.div_eq_of_lt hi, Nat.zero_add]
    rw [hmod, hdiv]

/-- C4: `cfl()` returns `dx` divided by the running maximum of the absolute
values of all entries of `u` and `v`; that divisor is positive whenever
some in-range entry is nonzero, and when every entry is zero the divisor
is 0 and the division `dx / 0` is performed unguarded (there is no special
case in the source). -/
theorem FluidSim.cfl_spec :
    (∀ s : FluidSim, FluidSim.cfl s = s.dx / FluidSim.maxvel s) ∧
    (∀ s : FluidSim,
      ((∃ i < s.ni + 1, ∃ j < s.nj, s.u i j ≠ 0) ∨
       (∃ i < s.ni, ∃ j < s.nj + 1, s.v i j ≠ 0)) →
      0 < FluidSim.maxvel s) ∧
    (∀ s : FluidSim,
      (∀ i < s.ni + 1, ∀ j < s.nj, s.u i j = 0) →
      (∀ i < s.ni, ∀ j < s.nj + 1, s.v i j = 0) →
      FluidSim.maxvel s = 0 ∧ FluidSim.cfl s = s.dx / 0) := by
  refine ⟨fun s => rfl, fun s h => ?_, fun s hu hv => ?_⟩
  · obtain ⟨i, hi, j, hj, hne⟩ | ⟨i, hi, j, hj, hne⟩ := h
    · have hmem : s.u i j ∈ FluidSim.u_entries s ++ FluidSim.v_entries s :=
        List.mem_append.2 (Or.inl (u_mem_entries s i j hi hj))
      exact lt_of_lt_of_le (abs_pos.2 hne) (le_foldl_max_abs _ 0 _ hmem)
    · have hmem : s.v i j ∈ FluidSim.u_entries s ++ FluidSim.v_entries s :=
        List.mem_append.2 (Or.inr (v_mem_entries s i j (lt_of_le_of_lt (Nat.zero_le i) hi) hi hj))
      exact lt_of_lt_of_le (abs_pos.2 hne) (le_foldl_max_abs _ 0 _ hmem)
  · have hall : ∀ x ∈ FluidSim.u_entries s ++ FluidSim.v_entries s, x = 0 := by
      intro x hx
      rcases List.mem_append.1 hx with hxu | hxv
      · obtain ⟨k, hk, rfl⟩ := List.mem_map.1 hxu
        have hk' := List.mem_range.1 hk
        exact hu _ (Nat.mod_lt _ (Nat.succ_pos _)) _ (Nat.div_lt_of_lt_mul hk')
      · obtain ⟨k, hk, rfl⟩ := List.mem_map.1 hxv
        have hk' := List.mem_range.1 hk
        have hpos : 0 < s.ni := by
          rcases Nat.eq_zero_or_pos s.ni with h0 | h0
          · rw [h0] at hk'; simp at hk'
          · exact h0
        exact hv _ (Nat.mod_lt _ hpos) _ (Nat.div_lt_of_lt_mul hk')
    have hmv : FluidSim.maxvel s = 0 := foldl_max_abs_zero _ hall
    exact ⟨hmv, by rw [FluidSim.cfl, hmv]⟩

/-! ## `solve_viscosity` face classification and final assignment (claim C8) -/

/-- C8: in the viscosity solve a u-face is classified SOLID exactly when it
is adjacent to the domain boundary (`i = 0` or `i >= ni`) or the average of
its two bracketing solid-distance node samples is non-positive, and FLUID
otherwise (symmetrically for v-faces with `j`); after the solve every SOLID
face's velocity is the fixed obstacle velocity 0 and every FLUID face's
velocity is the corresponding entry (`u_ind`/`v_ind`) of the solution
vector returned by the solver, so both components are fully overwritten
for every face, whatever the solver returns. -/
theorem FluidSim.solve_viscosity_spec (ora : Oracle) (dt : ℚ) (s : FluidSim) :
    (∀ i < s.ni + 1, ∀ j < s.nj,
      (FluidSim.u_solid_state s i j = true ↔
        (i = 0 ∨ s.ni ≤ i ∨ (s.nodal_solid_phi i (j+1) + s.nodal_solid_phi i j) / 2 ≤ 0)) ∧
      (FluidSim.solve_viscosity ora dt s).u i j =
        (if FluidSim.u_solid_state s i j then 0 else ora.viscosity_solve s (FluidSim.u_ind s i j))) ∧
    (∀ i < s.ni, ∀ j < s.nj + 1,
      (FluidSim.v_solid_state s i j = true ↔
        (j = 0 ∨ s.nj ≤ j ∨ (s.nodal_solid_phi (i+1) j + s.nodal_solid_phi i j) / 2 ≤ 0)) ∧
      (FluidSim.solve_viscosity ora dt s).v i j =
        (if FluidSim.v_solid_state s i j then 0 else ora.viscosity_solve s (FluidSim.v_ind s i j))) := by
  constructor
  · intro i hi j hj
    refine ⟨decide_eq_true_iff, ?_⟩
    show (if i < s.ni + 1 ∧ j < s.nj then
        (if FluidSim.u_solid_state s i j then 0 else ora.viscosity_solve s (FluidSim.u_ind s i j))
      else s.u i j) = _
    rw [if_pos ⟨hi, hj⟩]
  · intro i hi j hj
    refine ⟨decide_eq_true_iff, ?_⟩
    show (if i < s.ni ∧ j < s.nj + 1 then
        (if FluidSim.v_solid_state s i j then 0 else ora.viscosity_solve s (FluidSim.v_ind s i j))
      else s.v i j) = _
    rw [if_pos ⟨hi, hj⟩]

/-! ## `apply_projection` on an all-solid domain (claim C1) -/

/-- The velocity update of `solve_pressure` at a u-face, as a closed
formula (definitional unfolding). -/
theorem FluidSim.solve_pressure_u_eq (ora : Oracle) (dt : ℚ) (s : FluidSim) (i j : ℕ) :
    (FluidSim.solve_pressure ora dt s).u i j =
      if 1 ≤ i ∧ i < s.ni ∧ j < s.nj then
        (if 0 < s.u_weights i j ∧ (s.liquid_phi i j < 0 ∨ s.liquid_phi (i-1) j < 0) then
          s.u i j - dt * (ora.pressure_solve s (i + j * s.ni) - ora.pressure_solve s (i - 1 + j * s.ni)) / s.dx /
            FluidSim.pressure_theta (s.liquid_phi (i-1) j) (s.liquid_phi i j)
        else 0)
      else s.u i j := rfl

/-- The velocity update of `solve_pressure` at a v-face. -/
theorem FluidSim.solve_pressure_v_eq (ora : Oracle) (dt : ℚ) (s : FluidSim) (i j : ℕ) :
    (FluidSim.solve_pressure ora dt s).v i j =
      if 1 ≤ j ∧ j < s.nj ∧ i < s.ni then
        (if 0 < s.v_weights i j ∧ (s.liquid_phi i j < 0 ∨ s.liquid_phi i (j-1) < 0) then
          s.v i j - dt * (ora.pressure_solve s (i + j * s.ni) - ora.pressure_solve s (i + (j-1) * s.ni)) / s.dx /
            FluidSim.pressure_theta (s.liquid_phi i (j-1)) (s.liquid_phi i j)
        else 0)
      else s.v i j := rfl

/-- On an all-solid domain every pressure-stage u-face weight computes
to 0. -/
theorem FluidSim.compute_pressure_weights_u_all_solid (s : FluidSim)
    (hphi : ∀ i < s.ni + 1, ∀ j < s.nj + 1, s.nodal_solid_phi i j < 0)
    (i j : ℕ) (hi : i < s.ni + 1) (hj : j < s.nj) :
    (FluidSim.compute_pressure_weights s).u_weights i j = 0 := by
  show (if i < s.ni + 1 ∧ j < s.nj then
      clampQ (1 - fraction_inside (s.nodal_solid_phi i (j+1)) (s.nodal_solid_phi i j)) 0 1
    else s.u_weights i j) = 0
  rw [if_pos ⟨hi, hj⟩]
  have h1 : fraction_inside (s.nodal_solid_phi i (j+1)) (s.nodal_solid_phi i j) = 1 := by
    unfold fraction_inside
    rw [if_pos ⟨hphi i hi (j+1) (by omega), hphi i hi j (by omega)⟩]
  rw [h1]
  norm_num [clampQ]

/-- On an all-solid domain every pressure-stage v-face weight computes
to 0. -/
theorem FluidSim.compute_pressure_weights_v_all_solid (s : FluidSim)
    (hphi : ∀ i < s.ni + 1, ∀ j < s.nj + 1, s.nodal_solid_phi i j < 0)
    (i j : ℕ) (hi : i < s.ni) (hj : j < s.nj + 1) :
    (FluidSim.compute_pressure_weights s).v_weights i j = 0 := by
  show (if i < s.ni ∧ j < s.nj + 1 then
      clampQ (1 - fraction_inside (s.nodal_solid_phi (i+1) j) (s.nodal_solid_phi i j)) 0 1
    else s.v_weights i j) = 0
  rw [if_pos ⟨hi, hj⟩]
  have h1 : fraction_inside (s.nodal_solid_phi (i+1) j) (s.nodal_solid_phi i j) = 1 := by
    unfold fraction_inside
    rw [if_pos ⟨hphi (i+1) (by omega) j hj, hphi i (by omega) j hj⟩]
  rw [h1]
  norm_num [clampQ]

/-- C1: when the solid distance is negative at every grid node and the
velocity field is zero, `apply_projection` leaves every pressure-stage
face weight at 0 and leaves every entry of `u` and `v` at 0 (the update
loops zero every interior face because its weight is 0, and the faces on
the boundary ring, which the loops do not visit, keep their zero values),
whatever the pressure solver returns. -/
theorem FluidSim.apply_projection_all_solid (ora : Oracle) (dt : ℚ) (s : FluidSim)
    (hphi : ∀ i < s.ni + 1, ∀ j < s.nj + 1, s.nodal_solid_phi i j < 0)
    (hu : ∀ i < s.ni + 1, ∀ j < s.nj, s.u i j = 0)
    (hv : ∀ i < s.ni, ∀ j < s.nj + 1, s.v i j = 0) :
    (∀ i, i < s.ni + 1 → ∀ j, j < s.nj →
      (FluidSim.apply_projection ora dt s).u_weights i j = 0 ∧
      (FluidSim.apply_projection ora dt s).u i j = 0) ∧
    (∀ i, i < s.ni → ∀ j, j < s.nj + 1 →
      (FluidSim.apply_projection ora dt s).v_weights i j = 0 ∧
      (FluidSim.apply_projection ora dt s).v i j = 0) := by
  have happ : FluidSim.apply_projection ora dt s =
      FluidSim.solve_pressure ora dt (FluidSim.compute_pressure_weights s) := rfl
  constructor
  · intro i hi j hj
    have hw : (FluidSim.compute_pressure_weights s).u_weights i j = 0 :=
      FluidSim.compute_pressure_weights_u_all_solid s hphi i j hi hj
    constructor
    · rw [happ]
      show (FluidSim.compute_pressure_weights s).u_weights i j = 0
      exact hw
    · rw [happ, FluidSim.solve_pressure_u_eq]
      by_cases hc : 1 ≤ i ∧ i < (FluidSim.compute_pressure_weights s).ni ∧
          j < (FluidSim.compute_pressure_weights s).nj
      · rw [if_pos hc, if_neg]
        rintro ⟨h0, -⟩
        rw [hw] at h0
        exact lt_irrefl 0 h0
      · rw [if_neg hc]
        show s.u i j = 0
        exact hu i hi j hj
  · intro i hi j hj
    have hw : (FluidSim.compute_pressure_weights s).v_weights i j = 0 :=
      FluidSim.compute_pressure_weights_v_all_solid s hphi i j hi hj
    constructor
    · rw [happ]
      show (FluidSim.compute_pressure_weights s).v_weights i j = 0
      exact hw
    · rw [happ, FluidSim.solve_pressure_v_eq]
      by_cases hc : 1 ≤ j ∧ j < (FluidSim.compute_pressure_weights s).nj ∧
          i < (FluidSim.compute_pressure_weights s).ni
      · rw [if_pos hc, if_neg]
        rintro ⟨h0, -⟩
        rw [hw] at h0
        exact lt_irrefl 0 h0
      · rw [if_neg hc]
        show s.v i j = 0
        exact hv i hi j hj

/-- C1 (witness): the all-solid 1×1-cell state with zero velocity:
the hypotheses hold concretely and the conclusion follows by the theorem. -/
theorem FluidSim.apply_projection_all_solid_witness :
    (∀ i, i < ex_all_solid.ni + 1 → ∀ j, j < ex_all_solid.nj →
      (FluidSim.apply_projection zero_oracle 1 ex_all_solid).u_weights i j = 0 ∧
      (FluidSim.apply_projection zero_oracle 1 ex_all_solid).u i j = 0) ∧
    (∀ i, i < ex_all_solid.ni → ∀ j, j < ex_all_solid.nj + 1 →
      (FluidSim.apply_projection zero_oracle 1 ex_all_solid).v_weights i j = 0 ∧
      (FluidSim.apply_projection zero_oracle 1 ex_all_solid).v i j = 0) :=
  FluidSim.apply_projection_all_solid zero_oracle 1 ex_all_solid
    (by with_unfolding_all decide) (by with_unfolding_all decide) (by with_unfolding_all decide)

/-! ## `constrain_velocity` and the solid-normal component (claim C2) -/

/-- Removing from a vector its component along `normalizeV ora a` leaves a
vector whose component along that same direction is zero, whenever the
square-root oracle is exact on `a`. -/
theorem projected_normal_component_zero (ora : Oracle) (a vel : Vec2)
    (h : mag_exact ora a) :
    vdot (vsub vel (vscale (vdot vel (normalizeV ora a)) (normalizeV ora a)))
      (normalizeV ora a) = 0 := by
  obtain ⟨hsq, hne⟩ := h
  have hm2 : (a.1 * a.1 + a.2 * a.2) / (mag ora a * mag ora a) = 1 := by
    rw [← hsq]; exact div_self (mul_ne_zero hne hne)
  show (vel.1 - (vel.1 * (a.1 / mag ora a) + vel.2 * (a.2 / mag ora a)) * (a.1 / mag ora a)) *
      (a.1 / mag ora a) +
    (vel.2 - (vel.1 * (a.1 / mag ora a) + vel.2 * (a.2 / mag ora a)) * (a.2 / mag ora a)) *
      (a.2 / mag ora a) = 0
  set c : ℚ := vel.1 * (a.1 / mag ora a) + vel.2 * (a.2 / mag ora a) with hc
  have expand : ∀ x : ℚ,
      (vel.1 - x * (a.1 / mag ora a)) * (a.1 / mag ora a) +
        (vel.2 - x * (a.2 / mag ora a)) * (a.2 / mag ora a) =
      (vel.1 * (a.1 / mag ora a) + vel.2 * (a.2 / mag ora a)) -
        x * ((a.1 * a.1 + a.2 * a.2) / (mag ora a * mag ora a)) := by
    intro x
    field_simp
    ring
  rw [expand c, ← hc, hm2, mul_one, sub_self]

/-- C2 (counterexample): on `ex_constrain` the u-face `(1,1)` has
pressure-stage weight exactly 0 and its solid-distance gradient is
`(3,4)`, exactly normalised to `(3/5, 4/5)` by the oracle; yet after
`constrain_velocity` the interpolated velocity at that face's sample
position `(1, 3/2)` has normal component `112/125 ≠ 0` — the constraint
stores only the face's own component, and re-interpolation mixes in the
unconstrained transverse component. -/
theorem constrain_velocity_normal_not_zero :
    ex_constrain.u_weights 1 1 = 0 ∧
    FluidSim.solid_gradient ex_constrain (FluidSim.u_face_position ex_constrain 1 1) = (3, 4) ∧
    FluidSim.solid_normal ex_constrain_oracle ex_constrain
      (FluidSim.u_face_position ex_constrain 1 1) = (3/5, 4/5) ∧
    vdot
      (FluidSim.get_velocity (FluidSim.constrain_velocity ex_constrain_oracle ex_constrain)
        (FluidSim.u_face_position ex_constrain 1 1))
      (FluidSim.solid_normal ex_constrain_oracle ex_constrain
        (FluidSim.u_face_position ex_constrain 1 1)) = 112/125 ∧
    (112/125 : ℚ) ≠ 0 := by
  with_unfolding_all decide

/-- C2 (amended): after `constrain_velocity`, every u-face of zero weight
stores the first component of the tangential projection of the pre-call
sampled velocity at that face (and symmetrically every zero-weight v-face
stores the second component); the projected vector itself has zero
component along the normalised solid gradient whenever the square-root
oracle is exact there.  (The normal component of the velocity field
re-interpolated at the face after the pass need not vanish; see the
counterexample.) -/
theorem FluidSim.constrain_velocity_spec (ora : Oracle) (s : FluidSim) :
    (∀ i, i < s.ni + 1 → ∀ j, j < s.nj → s.u_weights i j = 0 →
      (FluidSim.constrain_velocity ora s).u i j =
        (FluidSim.constrained_velocity ora s (FluidSim.u_face_position s i j)).1 ∧
      (mag_exact ora (FluidSim.solid_gradient s (FluidSim.u_face_position s i j)) →
        vdot (FluidSim.constrained_velocity ora s (FluidSim.u_face_position s i j))
          (FluidSim.solid_normal ora s (FluidSim.u_face_position s i j)) = 0)) ∧
    (∀ i, i < s.ni → ∀ j, j < s.nj + 1 → s.v_weights i j = 0 →
      (FluidSim.constrain_velocity ora s).v i j =
        (FluidSim.constrained_velocity ora s (FluidSim.v_face_position s i j)).2 ∧
      (mag_exact ora (FluidSim.solid_gradient s (FluidSim.v_face_position s i j)) →
        vdot (FluidSim.constrained_velocity ora s (FluidSim.v_face_position s i j))
          (FluidSim.solid_normal ora s (FluidSim.v_face_position s i j)) = 0)) := by
  constructor
  · intro i hi j hj hw
    constructor
    · show (if i < s.ni + 1 ∧ j < s.nj ∧ s.u_weights i j = 0 then
          (FluidSim.constrained_velocity ora s (FluidSim.u_face_position s i j)).1
        else s.u i j) = _
      rw [if_pos ⟨hi, hj, hw⟩]
    · intro hex
      exact projected_normal_component_zero ora _ _ hex
  · intro i hi j hj hw
    constructor
    · show (if i < s.ni ∧ j < s.nj + 1 ∧ s.v_weights i j = 0 then
          (FluidSim.constrained_velocity ora s (FluidSim.v_face_position s i j)).2
        else s.v i j) = _
      rw [if_pos ⟨hi, hj, hw⟩]
    · intro hex
      exact projected_normal_component_zero ora _ _ hex

/-- C2 (amended, witness): the amended statement instantiated at the
constrained u-face `(1,1)` of `ex_constrain`, whose gradient `(3,4)` the
oracle square-roots exactly. -/
theorem FluidSim.constrain_velocity_spec_witness :
    (FluidSim.constrain_velocity ex_constrain_oracle ex_constrain).u 1 1 =
      (FluidSim.constrained_velocity ex_constrain_oracle ex_constrain
        (FluidSim.u_face_position ex_constrain 1 1)).1 ∧
    vdot (FluidSim.constrained_velocity ex_constrain_oracle ex_constrain
        (FluidSim.u_face_position ex_constrain 1 1))
      (FluidSim.solid_normal ex_constrain_oracle ex_constrain
        (FluidSim.u_face_position ex_constrain 1 1)) = 0 := by
  obtain ⟨h1, h2⟩ :=
    (FluidSim.constrain_velocity_spec ex_constrain_oracle ex_constrain).1 1
      (by with_unfolding_all decide) 1 (by with_unfolding_all decide)
      (by with_unfolding_all decide)
  exact ⟨h1, h2 (by constructor <;> with_unfolding_all decide)⟩

/-! ## `extrapolate` (claim C7) -/

/-- A pass never revokes validity. -/
theorem extrapolate_pass_valid_mono (ni nj : ℕ) (gv : Grid × BGrid) (i j : ℕ)
    (h : gv.2 i j = true) : (extrapolate_pass ni nj gv).2 i j = true := by
  show (if 1 ≤ i ∧ i + 1 < ni ∧ 1 ≤ j ∧ j + 1 < nj ∧ gv.2 i j = false ∧
      0 < (valid_neighbours gv.2 i j).length then true else gv.2 i j) = true
  split_ifs with hc
  · rfl
  · exact h

/-- Validity persists through any number of passes. -/
theorem extrapolate_valid_persists (ni nj : ℕ) (n : ℕ) (gv : Grid × BGrid) (i j : ℕ)
    (h : gv.2 i j = true) : ((extrapolate_pass ni nj)^[n] gv).2 i j = true := by
  induction n generalizing gv with
  | zero => exact h
  | succ n ih =>
    rw [Function.iterate_succ_apply]
    exact ih _ (extrapolate_pass_valid_mono ni nj gv i j h)

/-- After `k` passes, every face within flood-fill distance `k` of an
initially valid face is valid. -/
theorem flood_fill_valid (ni nj : ℕ) (k : ℕ) (gv : Grid × BGrid) (i j : ℕ)
    (h : within_flood_dist gv.2 ni nj k (i, j) = true) :
    ((extrapolate_pass ni nj)^[k] gv).2 i j = true := by
  induction k generalizing gv i j with
  | zero => exact h
  | succ k ih =>
    simp only [within_flood_dist, Bool.or_eq_true, Bool.and_eq_true,
      List.any_eq_true] at h
    rcases h with hvalid | ⟨hint, d, hd, hwd⟩
    · exact extrapolate_valid_persists ni nj (k+1) gv i j hvalid
    · have hv' : ((extrapolate_pass ni nj)^[k] gv).2 d.1 d.2 = true := ih gv d.1 d.2 hwd
      rw [Function.iterate_succ_apply']
      by_cases hc : ((extrapolate_pass ni nj)^[k] gv).2 i j = true
      · exact extrapolate_pass_valid_mono ni nj _ i j hc
      · have hcf : ((extrapolate_pass ni nj)^[k] gv).2 i j = false :=
          Bool.eq_false_iff.2 hc
        have hintp := of_decide_eq_true hint
        have hmem : d ∈ valid_neighbours ((extrapolate_pass ni nj)^[k] gv).2 i j :=
          List.mem_filter.2 ⟨hd, hv'⟩
        show (if 1 ≤ i ∧ i + 1 < ni ∧ 1 ≤ j ∧ j + 1 < nj ∧
            ((extrapolate_pass ni nj)^[k] gv).2 i j = false ∧
            0 < (valid_neighbours ((extrapolate_pass ni nj)^[k] gv).2 i j).length then true
          else ((extrapolate_pass ni nj)^[k] gv).2 i j) = true
        rw [if_pos ⟨hintp.1, hintp.2.1, hintp.2.2.1, hintp.2.2.2, hcf,
          List.length_pos_of_mem hmem⟩]

/-- C7: `extrapolate` is exactly 10 passes; in one pass every interior
face that is invalid at the start of the pass and has at least one valid
neighbour receives the average of the valid neighbours' start-of-pass
values and becomes valid; consequently after the call every interior face
that was invalid and has a valid face within flood-fill distance 10
through interior faces is marked valid. -/
theorem extrapolate_spec (ni nj : ℕ) (g : Grid) (valid : BGrid) :
    (extrapolate ni nj (g, valid) = (extrapolate_pass ni nj)^[10] (g, valid)) ∧
    (∀ i j, 1 ≤ i → i + 1 < ni → 1 ≤ j → j + 1 < nj → valid i j = false →
      0 < (valid_neighbours valid i j).length →
      (extrapolate_pass ni nj (g, valid)).1 i j =
        ((valid_neighbours valid i j).foldl (fun sum c => sum + g c.1 c.2) 0) /
          ((valid_neighbours valid i j).length : ℚ) ∧
      (extrapolate_pass ni nj (g, valid)).2 i j = true) ∧
    (∀ i j, interior_face ni nj (i, j) = true → valid i j = false →
      within_flood_dist valid ni nj 10 (i, j) = true →
      (extrapolate ni nj (g, valid)).2 i j = true) := by
  refine ⟨rfl, fun i j h1 h2 h3 h4 hinv hlen => ⟨?_, ?_⟩, fun i j hint hinv hdist => ?_⟩
  · simp only [extrapolate_pass]
    rw [if_pos ⟨h1, h2, h3, h4, hinv⟩, if_pos hlen]
  · simp only [extrapolate_pass]
    rw [if_pos ⟨h1, h2, h3, h4, hinv, hlen⟩]
  · have hunfold : extrapolate ni nj (g, valid) = (extrapolate_pass ni nj)^[10] (g, valid) := rfl
    rw [hunfold]
    exact flood_fill_valid ni nj 10 (g, valid) i j hdist

/-! ## Frame properties of `advance` (claims C6 and C9) -/

theorem FluidSim.static_eq_trans {a b c : FluidSim}
    (h1 : FluidSim.static_eq a b) (h2 : FluidSim.static_eq b c) :
    FluidSim.static_eq a c :=
  ⟨h1.1.trans h2.1, h1.2.1.trans h2.2.1, h1.2.2.1.trans h2.2.2.1,
   h1.2.2.2.1.trans h2.2.2.2.1, h1.2.2.2.2.trans h2.2.2.2.2⟩

theorem FluidSim.advect_particles_static (ora : Oracle) (d : ℚ) (s : FluidSim) :
    FluidSim.static_eq (FluidSim.advect_particles ora d s) s := ⟨rfl, rfl, rfl, rfl, rfl⟩

theorem FluidSim.compute_phi_static (ora : Oracle) (s : FluidSim) :
    FluidSim.static_eq (FluidSim.compute_phi ora s) s := ⟨rfl, rfl, rfl, rfl, rfl⟩

theorem FluidSim.advect_static (d : ℚ) (s : FluidSim) :
    FluidSim.static_eq (FluidSim.advect d s) s := ⟨rfl, rfl, rfl, rfl, rfl⟩

theorem FluidSim.add_force_static (d : ℚ) (s : FluidSim) :
    FluidSim.static_eq (FluidSim.add_force d s) s := ⟨rfl, rfl, rfl, rfl, rfl⟩

theorem FluidSim.apply_viscosity_static (ora : Oracle) (d : ℚ) (s : FluidSim) :
    FluidSim.static_eq (FluidSim.apply_viscosity ora d s) s := ⟨rfl, rfl, rfl, rfl, rfl⟩

theorem FluidSim.apply_projection_static (ora : Oracle) (d : ℚ) (s : FluidSim) :
    FluidSim.static_eq (FluidSim.apply_projection ora d s) s := ⟨rfl, rfl, rfl, rfl, rfl⟩

theorem FluidSim.extrapolate_u_static (s : FluidSim) :
    FluidSim.static_eq (FluidSim.extrapolate_u s) s := ⟨rfl, rfl, rfl, rfl, rfl⟩

theorem FluidSim.extrapolate_v_static (s : FluidSim) :
    FluidSim.static_eq (FluidSim.extrapolate_v s) s := ⟨rfl, rfl, rfl, rfl, rfl⟩

theorem FluidSim.constrain_velocity_static (ora : Oracle) (s : FluidSim) :
    FluidSim.static_eq (FluidSim.constrain_velocity ora s) s := ⟨rfl, rfl, rfl, rfl, rfl⟩

/-- One sub-step leaves all static data untouched. -/
theorem FluidSim.sub_step_static (ora : Oracle) (d : ℚ) (s : FluidSim) :
    FluidSim.static_eq (FluidSim.sub_step ora d s) s :=
  FluidSim.static_eq_trans (FluidSim.constrain_velocity_static ora _)
    (FluidSim.static_eq_trans (FluidSim.extrapolate_v_static _)
      (FluidSim.static_eq_trans (FluidSim.extrapolate_u_static _)
        (FluidSim.static_eq_trans (FluidSim.apply_projection_static ora d _)
          (FluidSim.static_eq_trans (FluidSim.apply_viscosity_static ora d _)
            (FluidSim.static_eq_trans (FluidSim.add_force_static d _)
              (FluidSim.static_eq_trans (FluidSim.advect_static d _)
                (FluidSim.static_eq_trans (FluidSim.compute_phi_static ora _)
                  (FluidSim.advect_particles_static ora d s))))))))

theorem FluidSim.compute_phi_particles_eq (ora : Oracle) (s : FluidSim) :
    (FluidSim.compute_phi ora s).particles = s.particles := rfl

theorem FluidSim.advect_particles_list (ora : Oracle) (d : ℚ) (s : FluidSim) :
    (FluidSim.advect_particles ora d s).particles =
      s.particles.map (FluidSim.advect_particle ora s d) := rfl

theorem FluidSim.advect_particles_eq (d : ℚ) (s : FluidSim) :
    (FluidSim.advect d s).particles = s.particles := rfl

theorem FluidSim.add_force_particles_eq (d : ℚ) (s : FluidSim) :
    (FluidSim.add_force d s).particles = s.particles := rfl

theorem FluidSim.apply_viscosity_particles_eq (ora : Oracle) (d : ℚ) (s : FluidSim) :
    (FluidSim.apply_viscosity ora d s).particles = s.particles := rfl

theorem FluidSim.apply_projection_particles_eq (ora : Oracle) (d : ℚ) (s : FluidSim) :
    (FluidSim.apply_projection ora d s).particles = s.particles := rfl

theorem FluidSim.extrapolate_u_particles_eq (s : FluidSim) :
    (FluidSim.extrapolate_u s).particles = s.particles := rfl

theorem FluidSim.extrapolate_v_particles_eq (s : FluidSim) :
    (FluidSim.extrapolate_v s).particles = s.particles := rfl

theorem FluidSim.constrain_velocity_particles_eq (ora : Oracle) (s : FluidSim) :
    (FluidSim.constrain_velocity ora s).particles = s.particles := rfl

/-- One sub-step maps the particle list pointwise: the particles moved by
`advect_particles` pass unchanged through every later stage. -/
theorem FluidSim.sub_step_particles (ora : Oracle) (d : ℚ) (s : FluidSim) :
    (FluidSim.sub_step ora d s).particles =
      s.particles.map (FluidSim.advect_particle ora s d) :=
  (FluidSim.constrain_velocity_particles_eq ora _).trans
    ((FluidSim.extrapolate_v_particles_eq _).trans
      ((FluidSim.extrapolate_u_particles_eq _).trans
        ((FluidSim.apply_projection_particles_eq ora d _).trans
          ((FluidSim.apply_viscosity_particles_eq ora d _).trans
            ((FluidSim.add_force_particles_eq d _).trans
              ((FluidSim.advect_particles_eq d _).trans
                ((FluidSim.compute_phi_particles_eq ora _).trans
                  (FluidSim.advect_particles_list ora d s))))))))

/-- C6: `advance(dt)` never changes the number of particles, for any
time interval, any number of loop iterations, and any solver behaviour:
`advect_particles` moves each particle in place (a pointwise map) and no
other stage touches the particle list. -/
theorem FluidSim.advance_particle_count (ora : Oracle) (dt : ℚ) (fuel : ℕ) (s : FluidSim) :
    (FluidSim.advance ora dt fuel s).particles.length = s.particles.length := by
  have key : ∀ (n : ℕ) (ts : ℚ × FluidSim),
      ((advance_step FluidSim.cfl (fun s' substep => FluidSim.sub_step ora substep s') dt)^[n] ts).2.particles.length =
        ts.2.particles.length := by
    intro n
    induction n with
    | zero => intro ts; rfl
    | succ n ih =>
      intro ts
      rw [Function.iterate_succ_apply, ih]
      unfold advance_step
      split_ifs with h
      · show (FluidSim.sub_step ora _ ts.2).particles.length = ts.2.particles.length
        rw [FluidSim.sub_step_particles, List.length_map]
      · rfl
  exact key fuel (0, s)

/-- C9: `advance(dt)` leaves the grid dimensions `ni`, `nj`, the cell
size `dx`, the entire solid distance field and the entire viscosity field
unchanged, for any interval, any number of loop iterations and any solver
behaviour.  The shapes of all grid arrays are fixed functions of `ni`
and `nj` (see the `FluidSim` structure), so they are unchanged as well. -/
theorem FluidSim.advance_static_frame (ora : Oracle) (dt : ℚ) (fuel : ℕ) (s : FluidSim) :
    (FluidSim.advance ora dt fuel s).ni = s.ni ∧
    (FluidSim.advance ora dt fuel s).nj = s.nj ∧
    (FluidSim.advance ora dt fuel s).dx = s.dx ∧
    (FluidSim.advance ora dt fuel s).nodal_solid_phi = s.nodal_solid_phi ∧
    (FluidSim.advance ora dt fuel s).viscosity = s.viscosity := by
  have key : ∀ (n : ℕ) (ts : ℚ × FluidSim),
      FluidSim.static_eq ((advance_step FluidSim.cfl
        (fun s' substep => FluidSim.sub_step ora substep s') dt)^[n] ts).2 ts.2 := by
    intro n
    induction n with
    | zero => intro ts; exact ⟨rfl, rfl, rfl, rfl, rfl⟩
    | succ n ih =>
      intro ts
      rw [Function.iterate_succ_apply]
      refine FluidSim.static_eq_trans
        (ih (advance_step FluidSim.cfl (fun s' substep => FluidSim.sub_step ora substep s') dt ts)) ?_
      unfold advance_step
      split_ifs with h
      · exact FluidSim.sub_step_static ora _ ts.2
      · exact ⟨rfl, rfl, rfl, rfl, rfl⟩
  exact key fuel (0, s)

/-! ## The sub-stepping loop of `advance` (claim C5) -/

/-- While the interval is not yet consumed, one loop iteration advances
the accumulated time by exactly `min(cfl, dt - t)`: the sub-step is the
CFL estimate, clipped to the remaining time when `t + substep > dt`. -/
theorem advance_step_min {S : Type} (cflF : S → ℚ) (stepF : S → ℚ → S) (dt : ℚ)
    (ts : ℚ × S) (h : ts.1 < dt) :
    (advance_step cflF stepF dt ts).1 = ts.1 + min (cflF ts.2) (dt - ts.1) := by
  unfold advance_step
  rw [if_pos h]
  dsimp only
  rcases lt_or_le dt (ts.1 + cflF ts.2) with hc | hc
  · rw [if_pos hc, min_eq_right (by linarith)]
  · rw [if_neg (not_lt.2 hc), min_eq_left (by linarith)]

/-- Unfolding one iteration of the loop trace. -/
theorem advance_trace_succ {S : Type} (cflF : S → ℚ) (stepF : S → ℚ → S) (dt : ℚ)
    (s0 : S) (k : ℕ) :
    advance_trace cflF stepF dt s0 (k + 1) =
      advance_step cflF stepF dt (advance_trace cflF stepF dt s0 k) :=
  Function.iterate_succ_apply' _ _ _

/-- If the CFL values along the trace are bounded below by `ε > 0`, the
accumulated time after `k` iterations is at least `min dt (k*ε)` and at
most `dt`. -/
theorem advance_trace_bounds {S : Type} (cflF : S → ℚ) (stepF : S → ℚ → S)
    (dt ε : ℚ) (s0 : S) (hdt : 0 < dt) (hε : 0 < ε) (N : ℕ)
    (hcfl : ∀ k, k < N → ε ≤ cflF (advance_trace cflF stepF dt s0 k).2) :
    ∀ k, k ≤ N → min dt ((k : ℚ) * ε) ≤ (advance_trace cflF stepF dt s0 k).1 ∧
      (advance_trace cflF stepF dt s0 k).1 ≤ dt := by
  intro k
  induction k with
  | zero =>
    intro _
    have h0 : (advance_trace cflF stepF dt s0 0).1 = 0 := rfl
    rw [h0]
    constructor
    · push_cast
      rw [zero_mul]
      exact min_le_right _ _
    · exact le_of_lt hdt
  | succ k ih =>
    intro hk1
    obtain ⟨hlo, hhi⟩ := ih (Nat.le_of_succ_le hk1)
    rcases lt_or_le (advance_trace cflF stepF dt s0 k).1 dt with hlt | hge
    · have hc : ε ≤ cflF (advance_trace cflF stepF dt s0 k).2 :=
        hcfl k (Nat.lt_of_succ_le hk1)
      rw [advance_trace_succ, advance_step_min cflF stepF dt _ hlt]
      constructor
      · have h1 : min dt (((k : ℚ) + 1) * ε) ≤ min dt ((k : ℚ) * ε) + ε := by
          rcases le_total dt ((k : ℚ) * ε) with h | h
          · calc min dt (((k : ℚ) + 1) * ε) ≤ dt := min_le_left _ _
            _ = min dt ((k : ℚ) * ε) := (min_eq_left h).symm
            _ ≤ min dt ((k : ℚ) * ε) + ε := by linarith
          · calc min dt (((k : ℚ) + 1) * ε) ≤ ((k : ℚ) + 1) * ε := min_le_right _ _
            _ = (k : ℚ) * ε + ε := by ring
            _ = min dt ((k : ℚ) * ε) + ε := by rw [min_eq_right h]
        push_cast
        rcases le_total (cflF (advance_trace cflF stepF dt s0 k).2)
            (dt - (advance_trace cflF stepF dt s0 k).1) with hm | hm
        · rw [min_eq_left hm]
          calc min dt (((k : ℚ) + 1) * ε) ≤ min dt ((k : ℚ) * ε) + ε := h1
          _ ≤ (advance_trace cflF stepF dt s0 k).1 +
              cflF (advance_trace cflF stepF dt s0 k).2 := by linarith
        · rw [min_eq_right hm]
          calc min dt (((k : ℚ) + 1) * ε) ≤ dt := min_le_left _ _
          _ = (advance_trace cflF stepF dt s0 k).1 +
              (dt - (advance_trace cflF stepF dt s0 k).1) := by ring
      · have := min_le_right (cflF (advance_trace cflF stepF dt s0 k).2)
          (dt - (advance_trace cflF stepF dt s0 k).1)
        linarith
    · have heq : advance_trace cflF stepF dt s0 (k + 1) = advance_trace cflF stepF dt s0 k := by
        rw [advance_trace_succ]
        unfold advance_step
        rw [if_neg (not_lt.2 hge)]
      have hteq : (advance_trace cflF stepF dt s0 k).1 = dt := le_antisymm hhi hge
      rw [heq, hteq]
      exact ⟨min_le_left _ _, le_refl dt⟩

/-- C5 (amended): for every `dt > 0`, if the CFL estimates seen by the
sub-stepping loop of `advance` are bounded below by some `ε > 0`, the
loop consumes the whole interval within `⌈dt/ε⌉` iterations: the
accumulated time reaches exactly `dt` (so the `while (t < dt)` guard
terminates); each iteration taken while `t < dt` advances `t` by exactly
`min(cfl, dt - t)` — the final sub-step is clipped to `dt - t`; and the
sub-step sizes telescope to exactly `dt`.  (Positivity of the per-step
CFL values alone does not suffice, see the counterexample.) -/
theorem FluidSim.advance_terminates_with_cfl_bound (ora : Oracle) (dt ε : ℚ) (s : FluidSim)
    (hdt : 0 < dt) (hε : 0 < ε)
    (hcfl : ∀ k, k < Nat.ceil (dt / ε) → ε ≤ FluidSim.cfl
      (advance_trace FluidSim.cfl (fun s' substep => FluidSim.sub_step ora substep s') dt s k).2) :
    (advance_trace FluidSim.cfl (fun s' substep => FluidSim.sub_step ora substep s') dt s
        (Nat.ceil (dt / ε))).1 = dt ∧
    advance_consumes FluidSim.cfl (fun s' substep => FluidSim.sub_step ora substep s') dt s ∧
    (∀ k, (advance_trace FluidSim.cfl (fun s' substep => FluidSim.sub_step ora substep s') dt s k).1 < dt →
      (advance_trace FluidSim.cfl (fun s' substep => FluidSim.sub_step ora substep s') dt s (k + 1)).1 =
        (advance_trace FluidSim.cfl (fun s' substep => FluidSim.sub_step ora substep s') dt s k).1 +
          min (FluidSim.cfl (advance_trace FluidSim.cfl
              (fun s' substep => FluidSim.sub_step ora substep s') dt s k).2)
            (dt - (advance_trace FluidSim.cfl
              (fun s' substep => FluidSim.sub_step ora substep s') dt s k).1)) ∧
    (∑ k in Finset.range (Nat.ceil (dt / ε)),
      ((advance_trace FluidSim.cfl (fun s' substep => FluidSim.sub_step ora substep s') dt s (k + 1)).1 -
       (advance_trace FluidSim.cfl (fun s' substep => FluidSim.sub_step ora substep s') dt s k).1)) = dt := by
  have hN : dt ≤ (Nat.ceil (dt / ε) : ℚ) * ε := by
    have h1 : dt / ε ≤ (Nat.ceil (dt / ε) : ℚ) := Nat.le_ceil _
    rw [div_le_iff hε] at h1
    exact h1
  have hend := advance_trace_bounds FluidSim.cfl
    (fun s' substep => FluidSim.sub_step ora substep s') dt ε s hdt hε
    (Nat.ceil (dt / ε)) hcfl (Nat.ceil (dt / ε)) (le_refl _)
  have hfin : (advance_trace FluidSim.cfl (fun s' substep => FluidSim.sub_step ora substep s') dt s
      (Nat.ceil (dt / ε))).1 = dt := by
    obtain ⟨hlo, hhi⟩ := hend
    rw [min_eq_left hN] at hlo
    exact le_antisymm hhi hlo
  refine ⟨hfin, ⟨Nat.ceil (dt / ε), ?_⟩, fun k hk => ?_, ?_⟩
  · rw [hfin]
    exact lt_irrefl dt
  · rw [advance_trace_succ, advance_step_min _ _ _ _ hk]
  · rw [Finset.sum_range_sub
      (fun k => (advance_trace FluidSim.cfl (fun s' substep => FluidSim.sub_step ora substep s') dt s k).1),
      hfin]
    have h0 : (advance_trace FluidSim.cfl (fun s' substep => FluidSim.sub_step ora substep s') dt s 0).1 = 0 := rfl
    rw [h0, sub_zero]

/-- C5 (counterexample): positivity of the per-sub-step CFL values alone
does not make the loop of `advance` terminate.  With `dt = 1` and CFL
values `(1/2)^(n+1)` (each strictly positive), the accumulated time after
`n` iterations is `1 - (1/2)^n`: every sub-step passes the `t + substep
> dt` test unclipped, `t` stays below `dt` forever, and the interval is
never consumed. -/
theorem advance_positive_cfl_not_consuming :
    (0 : ℚ) < 1 ∧
    cfl_positive_on_trace zeno_cfl zeno_step 1 0 ∧
    ¬ advance_consumes zeno_cfl zeno_step 1 0 := by
  have htr : ∀ n : ℕ, advance_trace zeno_cfl zeno_step 1 0 n = (1 - (1/2 : ℚ)^n, n) := by
    intro n
    induction n with
    | zero =>
      show ((0 : ℚ), (0 : ℕ)) = (1 - (1/2 : ℚ)^0, 0)
      norm_num
    | succ n ih =>
      have hpos : (0 : ℚ) < (1/2 : ℚ)^n := pow_pos (by norm_num) n
      have hpos1 : (0 : ℚ) < (1/2 : ℚ)^(n+1) := pow_pos (by norm_num) (n+1)
      have hlt : (1/2 : ℚ)^(n+1) < (1/2 : ℚ)^n := by
        rw [pow_succ]
        nlinarith
      rw [advance_trace_succ, ih]
      unfold advance_step
      rw [if_pos (show ((1 - (1/2 : ℚ)^n, (n : ℕ)) : ℚ × ℕ).1 < 1 by
        show 1 - (1/2 : ℚ)^n < 1
        linarith)]
      dsimp only
      rw [if_neg (show ¬ ((1 : ℚ) < 1 - (1/2 : ℚ)^n + zeno_cfl n) by
        unfold zeno_cfl
        push_neg
        linarith)]
      unfold zeno_cfl zeno_step
      rw [Prod.mk.injEq]
      refine ⟨by rw [pow_succ]; ring, rfl⟩
  refine ⟨by norm_num, fun n => ?_, ?_⟩
  · rw [htr]
    show (0 : ℚ) < zeno_cfl n
    exact pow_pos (by norm_num) (n+1)
  · rintro ⟨n, hn⟩
    rw [htr] at hn
    have hpos : (0 : ℚ) < (1/2 : ℚ)^n := pow_pos (by norm_num) n
    exact hn (by show 1 - (1/2 : ℚ)^n < 1; linarith)

/-- C5 (amended, witness): on `ex_unit_vel` the CFL estimate is exactly
`dx / maxvel = 1`, so with `dt = ε = 1` the loop consumes the interval in
`⌈1/1⌉ = 1` iteration. -/
theorem FluidSim.advance_terminates_with_cfl_bound_witness :
    (advance_trace FluidSim.cfl (fun s' substep => FluidSim.sub_step zero_oracle substep s')
        1 ex_unit_vel (Nat.ceil ((1 : ℚ) / 1))).1 = 1 ∧
    advance_consumes FluidSim.cfl (fun s' substep => FluidSim.sub_step zero_oracle substep s')
      1 ex_unit_vel := by
  obtain ⟨h1, h2, -, -⟩ :=
    FluidSim.advance_terminates_with_cfl_bound zero_oracle 1 1 ex_unit_vel
      (by norm_num) (by norm_num)
      (by
        intro k hk
        have hk0 : k = 0 := by
          have : Nat.ceil ((1 : ℚ) / 1) = 1 := by norm_num
          omega
        subst hk0
        show (1 : ℚ) ≤ FluidSim.cfl ex_unit_vel
        with_unfolding_all decide)
  exact ⟨h1, h2⟩

/-! ## Witnessing instantiations of the conditional claim theorems -/

/-- C3 (amended, witness): concrete instances of every case: both-inside,
both-outside, mixed with strictly positive sample, mixed with zero sample,
and a continuity bound at `r = 1`, `ε = 1`. -/
theorem fraction_inside_cases_witness :
    fraction_inside (-1) (-1) = 1 ∧
    fraction_inside 1 1 = 0 ∧
    (0 < fraction_inside (-1) 1 ∧ fraction_inside (-1) 1 < 1) ∧
    fraction_inside (-2) 0 = 1 ∧
    (∃ δ : ℚ, 0 < δ ∧ ∀ l : ℚ, |l| < δ →
      |fraction_inside l 1 - fraction_inside 0 1| < 1) :=
  ⟨fraction_inside_cases.1 (-1) (-1) (by norm_num) (by norm_num),
   fraction_inside_cases.2.1 1 1 (by norm_num) (by norm_num),
   fraction_inside_cases.2.2.1 (-1) 1 (by norm_num) (by norm_num),
   fraction_inside_cases.2.2.2.2.1 (-2) (by norm_num),
   fraction_inside_cases.2.2.2.2.2.2.1 1 (by norm_num) 1 (by norm_num)⟩

/-- C4 (witness): a state with one unit entry has positive divisor, and
the all-zero-velocity all-solid example state divides by zero. -/
theorem FluidSim.cfl_spec_witness :
    0 < FluidSim.maxvel ex_unit_vel ∧
    FluidSim.maxvel ex_all_solid = 0 ∧
    FluidSim.cfl ex_all_solid = ex_all_solid.dx / 0 :=
  ⟨FluidSim.cfl_spec.2.1 ex_unit_vel
      (Or.inl ⟨0, by with_unfolding_all decide, 0, by with_unfolding_all decide, by with_unfolding_all decide⟩),
   (FluidSim.cfl_spec.2.2 ex_all_solid
      (by with_unfolding_all decide) (by with_unfolding_all decide)).1,
   (FluidSim.cfl_spec.2.2 ex_all_solid
      (by with_unfolding_all decide) (by with_unfolding_all decide)).2⟩

/-- C8 (witness): on the all-solid example the boundary u-face `(0,0)` is
SOLID and is assigned the obstacle velocity by the final loop. -/
theorem FluidSim.solve_viscosity_spec_witness :
    (FluidSim.u_solid_state ex_all_solid 0 0 = true ↔
      ((0 : ℕ) = 0 ∨ ex_all_solid.ni ≤ 0 ∨
        (ex_all_solid.nodal_solid_phi 0 1 + ex_all_solid.nodal_solid_phi 0 0) / 2 ≤ 0)) ∧
    (FluidSim.solve_viscosity zero_oracle 1 ex_all_solid).u 0 0 =
      (if FluidSim.u_solid_state ex_all_solid 0 0 then 0
       else zero_oracle.viscosity_solve ex_all_solid (FluidSim.u_ind ex_all_solid 0 0)) :=
  (FluidSim.solve_viscosity_spec zero_oracle 1 ex_all_solid).1 0
    (by with_unfolding_all decide) 0 (by with_unfolding_all decide)

/-- C7 (witness): on the 4×4 example with only `(1,2)` valid, the interior
invalid face `(2,2)` is within flood-fill distance 10 and `extrapolate`
marks it valid. -/
theorem extrapolate_spec_witness :
    (extrapolate 4 4 (ex_grid, ex_valid)).2 2 2 = true :=
  (extrapolate_spec 4 4 ex_grid ex_valid).2.2 2 2
    (by with_unfolding_all decide) (by with_unfolding_all decide)
    (by with_unfolding_all decide)

/-- C10 (witness): a concrete entry of `v` drops by exactly `1/10` and the
result does not depend on the `dt` passed. -/
theorem FluidSim.add_force_spec_witness :
    (FluidSim.add_force 1 ex_unit_vel).v 0 0 = ex_unit_vel.v 0 0 - 1/10 ∧
    FluidSim.add_force 1 ex_unit_vel = FluidSim.add_force 2 ex_unit_vel :=
  ⟨FluidSim.add_force_spec.2.2.1 ex_unit_vel 1 0 (by with_unfolding_all decide) 0
      (by with_unfolding_all decide),
   FluidSim.add_force_spec.1 ex_unit_vel 1 2⟩
